import Mathlib

/-
Verification of the core update logic of the "bubble" arcade game
(src/main.rs).  The per-tick systems are shallowly embedded:

* 2D vectors over the reals model glam's `Vec2`; machine `f32` arithmetic
  is idealised as exact real arithmetic.  `Vec2::normalize` of the zero
  vector, which yields NaN components in `f32`, is modelled with the
  Lean convention `x / 0 = 0`; the theorems concerned with degenerate
  normalization only use structural facts (whether an action fires at
  all), never the junk value itself.
* The collision-resolution pass (`check_bubble_enemy_collision`) and the
  round/state controller are embedded over the integers so that every
  predicate is decidable and concrete runs evaluate by `decide`; the
  collision logic uses coordinates and healths only through ring
  operations and order comparisons, so its control flow is identical
  over any ordered field.  The source's
  `bubble_pos.distance(enemy_pos) < 30.0` is translated as squared
  distance `< 900`, which is equivalent for nonnegative radii and
  avoids the square root.
* Bevy's `Query::single()` panics when the singleton is absent, while
  `get_single()` returns `Err`; system results are wrapped in `SysOut`
  where `SysOut.panicked` models the panic.
-/

set_option maxHeartbeats 1000000

/-- Planar vector over ℝ, modelling glam `Vec2`. -/
structure Vec2 where
  x : ℝ
  y : ℝ

noncomputable instance : DecidableEq Vec2 := Classical.decEq Vec2

noncomputable instance : Add Vec2 := ⟨fun a b => ⟨a.x + b.x, a.y + b.y⟩⟩

noncomputable instance : Sub Vec2 := ⟨fun a b => ⟨a.x - b.x, a.y - b.y⟩⟩

noncomputable instance : Neg Vec2 := ⟨fun v => ⟨-v.x, -v.y⟩⟩

noncomputable instance : SMul ℝ Vec2 := ⟨fun c v => ⟨c * v.x, c * v.y⟩⟩

/-- Dot product, modelling `Vec2::dot`. -/
noncomputable def Vec2.dot (a b : Vec2) : ℝ := a.x * b.x + a.y * b.y

/-- Squared length. -/
noncomputable def Vec2.sqLen (v : Vec2) : ℝ := v.x ^ 2 + v.y ^ 2

/-- Length, modelling `Vec2::length`. -/
noncomputable def Vec2.len (v : Vec2) : ℝ := Real.sqrt v.sqLen

/-- Modelling `Vec2::normalize` (componentwise division by the length;
for the zero vector the real-arithmetic convention `x / 0 = 0` stands in
for the NaN the `f32` code would produce). -/
noncomputable def Vec2.normalize (v : Vec2) : Vec2 := ⟨v.x / v.len, v.y / v.len⟩

/-- Held movement keys sampled for one tick (`KeyW`/`KeyS`/`KeyA`/`KeyD`). -/
structure Keys where
  keyW : Bool
  keyS : Bool
  keyA : Bool
  keyD : Bool

/-- The ship aggregate: `Transform` translation, `Velocity`, `Ship.health`. -/
structure ShipData where
  pos : Vec2
  vel : Vec2
  health : ℝ

/-- System `move_ship` (src/main.rs:205-264): accumulate input acceleration,
normalize and scale it by `1000.0 * dt`, add to velocity; multiply
velocity by friction `0.98`; clamp speed to `300.0` by rescaling; add
`velocity * dt` to the position; wrap each coordinate past the half
extents to the opposite edge. -/
noncomputable def moveShip (keys : Keys) (dt halfWidth halfHeight : ℝ)
    (ship : ShipData) : ShipData :=
  let acceleration : Vec2 := ⟨0, 0⟩
  let acceleration := if keys.keyW then ⟨acceleration.x, acceleration.y + 1⟩ else acceleration
  let acceleration := if keys.keyS then ⟨acceleration.x, acceleration.y - 1⟩ else acceleration
  let acceleration := if keys.keyA then ⟨acceleration.x - 1, acceleration.y⟩ else acceleration
  let acceleration := if keys.keyD then ⟨acceleration.x + 1, acceleration.y⟩ else acceleration
  let velocity :=
    if acceleration ≠ (⟨0, 0⟩ : Vec2) then
      ship.vel + ((1000 : ℝ) * dt) • acceleration.normalize
    else ship.vel
  let velocity := (0.98 : ℝ) • velocity
  let velocity := if velocity.len > 300 then (300 : ℝ) • velocity.normalize else velocity
  let px := ship.pos.x + velocity.x * dt
  let py := ship.pos.y + velocity.y * dt
  let px := if px > halfWidth then -halfWidth else if px < -halfWidth then halfWidth else px
  let py := if py > halfHeight then -halfHeight else if py < -halfHeight then halfHeight else py
  { ship with pos := ⟨px, py⟩, vel := velocity }

/-- The acceleration vector accumulated from the held keys inside
`move_ship`, before normalization. -/
def shipAccelRaw (keys : Keys) : ℝ × ℝ :=
  let ax : ℝ := 0
  let ay : ℝ := 0
  let ay := if keys.keyW then ay + 1 else ay
  let ay := if keys.keyS then ay - 1 else ay
  let ax := if keys.keyA then ax - 1 else ax
  let ax := if keys.keyD then ax + 1 else ax
  (ax, ay)

/-- Same acceleration as a `Vec2`, in the exact build order of `move_ship`. -/
noncomputable def shipAccel (keys : Keys) : Vec2 :=
  let acceleration : Vec2 := ⟨0, 0⟩
  let acceleration := if keys.keyW then ⟨acceleration.x, acceleration.y + 1⟩ else acceleration
  let acceleration := if keys.keyS then ⟨acceleration.x, acceleration.y - 1⟩ else acceleration
  let acceleration := if keys.keyA then ⟨acceleration.x - 1, acceleration.y⟩ else acceleration
  let acceleration := if keys.keyD then ⟨acceleration.x + 1, acceleration.y⟩ else acceleration
  acceleration

/-- The velocity produced by `move_ship` for one tick: input acceleration
added, then friction `0.98`, then the `300.0` speed clamp. -/
noncomputable def frictionClampVel (keys : Keys) (dt : ℝ) (v : Vec2) : Vec2 :=
  let velocity :=
    if shipAccel keys ≠ (⟨0, 0⟩ : Vec2) then
      v + ((1000 : ℝ) * dt) • (shipAccel keys).normalize
    else v
  let velocity := (0.98 : ℝ) • velocity
  if velocity.len > 300 then (300 : ℝ) • velocity.normalize else velocity

/-- Screen-wrap of one coordinate past a half extent (`move_ship`). -/
noncomputable def wrapCoord (half x : ℝ) : ℝ :=
  if x > half then -half else if x < -half then half else x

/-- One Euler step `translation += velocity * dt`, the body of
`move_bubbles` (src/main.rs:133-137).  The query
`Query<(&mut Transform, &Velocity)>` carries no `With<Bubble>` filter,
so this step is applied to every entity holding a `Transform` and a
`Velocity` - the ship and the enemies included. -/
noncomputable def integrate (dt : ℝ) (pos vel : Vec2) : Vec2 :=
  ⟨pos.x + vel.x * dt, pos.y + vel.y * dt⟩

/-- The two motion systems of one tick applied to the ship, in their
registration order: `move_bubbles` (whose unfiltered query matches the
ship) and then `move_ship`. -/
noncomputable def shipTick (keys : Keys) (dt halfWidth halfHeight : ℝ)
    (ship : ShipData) : ShipData :=
  moveShip keys dt halfWidth halfHeight
    { ship with pos := integrate dt ship.pos ship.vel }

/-- System `handle_ship_border` (src/main.rs:413-437): inside the 50-unit border
band, if the velocity has negative dot product with the unit vector
toward the center, subtract `10.0` health and add an inward impulse of
magnitude `500.0`. -/
noncomputable def handleShipBorder (winWidth winHeight : ℝ) (ship : ShipData) : ShipData :=
  let halfWidth := winWidth / 2 - 50
  let halfHeight := winHeight / 2 - 50
  if |ship.pos.x| > halfWidth ∨ |ship.pos.y| > halfHeight then
    let toCenter := -(Vec2.normalize ship.pos)
    if ship.vel.dot toCenter < 0 then
      { ship with health := ship.health - 10, vel := ship.vel + (500 : ℝ) • toCenter }
    else ship
  else ship

/-- The random draws consumed by one `spawn_bubble` call: the angle
perturbation in [-0.3, 0.3], the speed in [100, 200), the radius in
[5, 15), the lifetime in [1, 2) and the hue in [0, 360). -/
structure SpawnRng where
  angle : ℝ
  speed : ℝ
  size : ℝ
  life : ℝ
  hue : ℝ

/-- The fire direction computed by `spawn_bubble`: normalize
`mouse - ship_pos`, then rotate by the random angle. -/
noncomputable def spawnDirection (angle : ℝ) (shipPos mouse : Vec2) : Vec2 :=
  let toMouse := (mouse - shipPos).normalize
  ⟨toMouse.x * Real.cos angle - toMouse.y * Real.sin angle,
   toMouse.x * Real.sin angle + toMouse.y * Real.cos angle⟩

/-- A spawned bubble entity (position, velocity, radius, lifetime). -/
structure BubbleEnt where
  pos : Vec2
  vel : Vec2
  size : ℝ
  life : ℝ

/-- Result of running one Bevy system: `ok` with the updated world, or
`panicked` when a `Query::single()` call found no singleton. -/
inductive SysOut (α : Type _) where
  | ok : α → SysOut α
  | panicked : SysOut α

/-- The slice of the Bevy world the per-tick systems touch.  The camera
and the window are represented by their entity counts, since
`Query::single()` panics unless the count is exactly one. -/
structure WorldP where
  cameraCount : Nat
  windowCount : Nat
  winWidth : ℝ
  winHeight : ℝ
  cursor : Option Vec2
  mouse : Vec2
  ship : Option ShipData
  bubbles : List BubbleEnt
  pendingGameOver : Bool

/-- System `calculate_mouse_position` (src/main.rs:144-158): `camera_query.single()`
and `window_query.single()` panic unless exactly one of each exists; the
cursor is projected to world space by the camera (`proj`), defaulting to
the origin when absent. -/
noncomputable def calculateMousePosition (proj : Vec2 → Option Vec2) (w : WorldP) :
    SysOut WorldP :=
  if w.cameraCount = 1 ∧ w.windowCount = 1 then
    SysOut.ok { w with mouse := ((w.cursor.bind proj).getD ⟨0, 0⟩) }
  else SysOut.panicked

/-- System `spawn_bubble` (src/main.rs:92-131): skip when the ship singleton is
missing (`get_single`); when fire is held, compute the perturbed direction
toward the mouse, subtract the recoil `direction * 5.0` from the ship
velocity, and spawn one bubble at the ship position. -/
noncomputable def spawnBubbleSys (fireHeld : Bool) (rng : SpawnRng) (w : WorldP) :
    SysOut WorldP :=
  match w.ship with
  | none => SysOut.ok w
  | some sh =>
    if fireHeld then
      let toMouse := (w.mouse - sh.pos).normalize
      let direction : Vec2 :=
        ⟨toMouse.x * Real.cos rng.angle - toMouse.y * Real.sin rng.angle,
         toMouse.x * Real.sin rng.angle + toMouse.y * Real.cos rng.angle⟩
      SysOut.ok { w with
        ship := some { sh with vel := sh.vel - (5 : ℝ) • direction },
        bubbles := w.bubbles ++
          [{ pos := sh.pos, vel := rng.speed • direction, size := rng.size, life := rng.life }] }
    else SysOut.ok w

/-- System `despawn_bubbles` (src/main.rs:187-203): `window_query.single()`
panics without a window; otherwise bubbles outside the half extents are
despawned. -/
noncomputable def despawnBubblesSys (w : WorldP) : SysOut WorldP :=
  if w.windowCount = 1 then
    let halfWidth := w.winWidth / 2
    let halfHeight := w.winHeight / 2
    SysOut.ok { w with bubbles := w.bubbles.filter (fun b =>
      !(decide (b.pos.x < -halfWidth) || decide (b.pos.x > halfWidth) ||
        decide (b.pos.y < -halfHeight) || decide (b.pos.y > halfHeight))) }
  else SysOut.panicked

/-- System wrapper for `move_ship`: the ship query uses `get_single_mut` (skip
when absent), but `window_query.single()` inside the branch panics when
the window is missing. -/
noncomputable def moveShipSys (keys : Keys) (dt : ℝ) (w : WorldP) : SysOut WorldP :=
  match w.ship with
  | none => SysOut.ok w
  | some sh =>
    if w.windowCount = 1 then
      SysOut.ok { w with
        ship := some (moveShip keys dt (w.winWidth / 2) (w.winHeight / 2) sh) }
    else SysOut.panicked

/-- System wrapper for `handle_ship_border`: ship via `get_single_mut` (skip when
absent), window via `single()` (panic when absent). -/
noncomputable def handleShipBorderSys (w : WorldP) : SysOut WorldP :=
  match w.ship with
  | none => SysOut.ok w
  | some sh =>
    if w.windowCount = 1 then
      SysOut.ok { w with ship := some (handleShipBorder w.winWidth w.winHeight sh) }
    else SysOut.panicked

/-- System `check_game_over` (src/main.rs:439-445): ship via `get_single` (skip
when absent); request the GameOver transition when health is ≤ 0. -/
noncomputable def checkGameOverSys (w : WorldP) : SysOut WorldP :=
  match w.ship with
  | none => SysOut.ok w
  | some sh =>
    SysOut.ok (if sh.health ≤ 0 then { w with pendingGameOver := true } else w)

/-- Planar vector over ℤ, used for the collision and round models.  The
source positions are `f32`; the collision logic uses them only through
subtraction, multiplication, addition and order comparisons, so it is
embedded over the integers, where every predicate is decidable and
kernel-reducible, and the control flow is the same as over any ordered
field. -/
structure Vec2Q where
  x : ℤ
  y : ℤ
deriving DecidableEq

/-- Squared Euclidean distance.  The source compares
`bubble_pos.distance(enemy_pos) < 30.0`; squaring both sides gives the
equivalent decidable test `sqDist < 900`. -/
def sqDist (a b : Vec2Q) : ℤ := (a.x - b.x) ^ 2 + (a.y - b.y) ^ 2

/-- One live bubble as seen by `check_bubble_enemy_collision`: its entity
id and position. -/
structure BubbleM where
  id : Nat
  pos : Vec2Q
deriving DecidableEq

/-- One live enemy as seen by `check_bubble_enemy_collision`: entity id,
position and current health. -/
structure EnemyM where
  id : Nat
  pos : Vec2Q
  health : ℤ
deriving DecidableEq

/-- The ids of a list of enemies, in iteration order. -/
def enemyIds (es : List EnemyM) : List Nat := es.map (fun e => e.id)

/-- Result of the inner enemy scan for one bubble. -/
structure HitResult where
  enemies : List EnemyM
  destroyedEnemies : List Nat
  hit : Option Nat
deriving DecidableEq

/-- The inner loop of `check_bubble_enemy_collision` (src/main.rs:372-388)
for one bubble at `bpos`: scan the enemies in order, skipping those
already marked destroyed; on the first one with squared distance < 900,
subtract `25.0` health, mark the enemy destroyed when its health drops
to ≤ 0, and stop scanning (`break`). -/
def hitEnemy (bpos : Vec2Q) : List EnemyM → List Nat → HitResult
  | [], de => ⟨[], de, none⟩
  | e :: rest, de =>
    if e.id ∈ de then
      let r := hitEnemy bpos rest de
      ⟨e :: r.enemies, r.destroyedEnemies, r.hit⟩
    else if sqDist bpos e.pos < 900 then
      let newHealth := e.health - 25
      ⟨{ e with health := newHealth } :: rest,
       if newHealth ≤ 0 then de ++ [e.id] else de,
       some e.id⟩
    else
      let r := hitEnemy bpos rest de
      ⟨e :: r.enemies, r.destroyedEnemies, r.hit⟩

/-- Result of one full collision pass: the (still spawned) enemies with
updated healths, the destroyed-enemy and destroyed-bubble id sets, and
the log of (bubble id, enemy id) damage events. -/
structure PassResult where
  enemies : List EnemyM
  destroyedEnemies : List Nat
  destroyedBubbles : List Nat
  events : List (Nat × Nat)
deriving DecidableEq

/-- The outer loop of `check_bubble_enemy_collision` (src/main.rs:357-398):
iterate the bubbles in order, skipping those already marked destroyed;
each remaining bubble runs the inner enemy scan, and on a hit the bubble
is marked destroyed and the damage event is logged.  All despawns happen
after the loops, from the two destroyed sets. -/
def collisionPass : List BubbleM → List EnemyM → List Nat → List Nat →
    List (Nat × Nat) → PassResult
  | [], es, de, db, log => ⟨es, de, db, log⟩
  | b :: bs, es, de, db, log =>
    if b.id ∈ db then
      collisionPass bs es de db log
    else
      let r := hitEnemy b.pos es de
      match r.hit with
      | some eid =>
          collisionPass bs r.enemies r.destroyedEnemies (db ++ [b.id]) (log ++ [(b.id, eid)])
      | none =>
          collisionPass bs r.enemies r.destroyedEnemies db log

/-- Number of damage events a given enemy id received in a log. -/
def countHits (log : List (Nat × Nat)) (i : Nat) : Nat :=
  (log.filter (fun p => p.2 == i)).length

/-- Health of the enemy with the given id (0 when no such enemy exists). -/
def healthOf (es : List EnemyM) (i : Nat) : ℤ :=
  match es.find? (fun e => e.id == i) with
  | some e => e.health
  | none => 0

/-- Result of a sequence of collision passes. -/
structure PassesResult where
  enemies : List EnemyM
  events : List (Nat × Nat)
deriving DecidableEq

/-- Any number of collision passes over successive ticks: each tick runs
one `collisionPass` over the bubbles alive that tick, then despawns the
enemies marked destroyed; the damage events accumulate. -/
def runPasses : List (List BubbleM) → List EnemyM → PassesResult
  | [], es => ⟨es, []⟩
  | bs :: rest, es =>
    let r := collisionPass bs es [] [] []
    let survivors := r.enemies.filter (fun e => !(decide (e.id ∈ r.destroyedEnemies)))
    let next := runPasses rest survivors
    ⟨next.enemies, r.events ++ next.events⟩

/-- The loop invariant tying the destroyed-enemy set to health: an enemy
is marked destroyed exactly when its health is ≤ 0. -/
def sync (es : List EnemyM) (de : List Nat) : Prop :=
  ∀ e ∈ es, e.id ∈ de ↔ e.health ≤ 0

/-- Game state machine `GameState` (src/main.rs:7-12). -/
inductive GameState where
  | Playing
  | GameOver
deriving DecidableEq

/-- The ship as (re)created by `setup_game_round`. -/
structure ShipE where
  health : ℤ
  pos : Vec2Q
  vel : Vec2Q
deriving DecidableEq

/-- The world slice the round/state controller touches: the current
state, the pending `NextState`, the gameplay entities (all tagged
`GameplayObject`) and the persistent camera. -/
structure RoundWorld where
  state : GameState
  pending : Option GameState
  ship : Option ShipE
  bubbles : List Nat
  enemies : List Nat
  cameraAlive : Bool
deriving DecidableEq

/-- System `check_game_over` (src/main.rs:439-445): when a ship exists and its
health is ≤ 0, request the transition to GameOver. -/
def checkGameOver (w : RoundWorld) : RoundWorld :=
  match w.ship with
  | some sh => if sh.health ≤ 0 then { w with pending := some GameState.GameOver } else w
  | none => w

/-- System `cleanup_gameplay` (src/main.rs:509-513), registered on
`OnExit(GameState::Playing)`: despawn every `GameplayObject` (ship,
bubbles, enemies); the camera carries no such tag and survives. -/
def cleanupGameplay (w : RoundWorld) : RoundWorld :=
  { w with ship := none, bubbles := [], enemies := [] }

/-- System `setup_game_round` (src/main.rs:516-523), registered on
`OnEnter(GameState::Playing)`: spawn one fresh ship with health `100.0`,
position at the origin and default (zero) velocity. -/
def setupGameRound (w : RoundWorld) : RoundWorld :=
  { w with ship := some { health := 100, pos := ⟨0, 0⟩, vel := ⟨0, 0⟩ } }

/-- Bevy's state-transition step: when a different state is pending,
run the `OnExit` schedule of the old state and the `OnEnter` schedule of
the new one.  A pending state equal to the current one runs neither
(so a Replay request while already Playing has no effect). -/
def applyTransition (w : RoundWorld) : RoundWorld :=
  match w.pending with
  | none => w
  | some t =>
    if t = w.state then { w with pending := none }
    else
      let w1 := if w.state = GameState.Playing then cleanupGameplay w else w
      let w2 := if t = GameState.Playing then setupGameRound w1 else w1
      { w2 with state := t, pending := none }

theorem Vec2.ext_pair {a b : Vec2} (hx : a.x = b.x) (hy : a.y = b.y) : a = b := by
  cases a; cases b; simp_all

@[simp] theorem Vec2.add_x (a b : Vec2) : (a + b).x = a.x + b.x := rfl

@[simp] theorem Vec2.add_y (a b : Vec2) : (a + b).y = a.y + b.y := rfl

@[simp] theorem Vec2.sub_x (a b : Vec2) : (a - b).x = a.x - b.x := rfl

@[simp] theorem Vec2.sub_y (a b : Vec2) : (a - b).y = a.y - b.y := rfl

@[simp] theorem Vec2.neg_x (a : Vec2) : (-a).x = -a.x := rfl

@[simp] theorem Vec2.neg_y (a : Vec2) : (-a).y = -a.y := rfl

@[simp] theorem Vec2.smul_x (c : ℝ) (v : Vec2) : (c • v).x = c * v.x := rfl

@[simp] theorem Vec2.smul_y (c : ℝ) (v : Vec2) : (c • v).y = c * v.y := rfl

theorem Vec2.len_nonneg (v : Vec2) : 0 ≤ v.len := Real.sqrt_nonneg _

theorem Vec2.len_smul (c : ℝ) (v : Vec2) : (c • v).len = |c| * v.len := by
  simp only [Vec2.len, Vec2.sqLen, Vec2.smul_x, Vec2.smul_y]
  rw [show (c * v.x) ^ 2 + (c * v.y) ^ 2 = c ^ 2 * (v.x ^ 2 + v.y ^ 2) by ring,
    Real.sqrt_mul (sq_nonneg c), Real.sqrt_sq_eq_abs]

theorem Vec2.normalize_eq_smul (v : Vec2) : v.normalize = (1 / v.len) • v := by
  apply Vec2.ext_pair <;> simp [Vec2.normalize] <;> ring

theorem Vec2.len_normalize (v : Vec2) (h : 0 < v.len) : v.normalize.len = 1 := by
  rw [Vec2.normalize_eq_smul, Vec2.len_smul,
    abs_of_pos (by positivity : (0 : ℝ) < 1 / v.len), one_div_mul_cancel h.ne']

/-- The speed clamp of `move_ship` leaves the length at most 300. -/
theorem len_clamp_le (v : Vec2) :
    Vec2.len (if Vec2.len v > 300 then (300 : ℝ) • v.normalize else v) ≤ 300 := by
  by_cases h : Vec2.len v > 300
  · rw [if_pos h, Vec2.len_smul, Vec2.len_normalize v (lt_trans (by norm_num) h)]
    norm_num
  · rw [if_neg h]
    exact le_of_not_lt h

/-- `move_ship` decomposed: the final velocity is the friction-and-clamp
result, and each position coordinate is the wrap of the old coordinate
plus that velocity times `dt`. -/
theorem moveShip_eq (keys : Keys) (dt halfWidth halfHeight : ℝ) (ship : ShipData) :
    moveShip keys dt halfWidth halfHeight ship =
      { ship with
        pos := ⟨wrapCoord halfWidth (ship.pos.x + (frictionClampVel keys dt ship.vel).x * dt),
                wrapCoord halfHeight (ship.pos.y + (frictionClampVel keys dt ship.vel).y * dt)⟩,
        vel := frictionClampVel keys dt ship.vel } := rfl

theorem frictionClampVel_len_le (keys : Keys) (dt : ℝ) (v : Vec2) :
    (frictionClampVel keys dt v).len ≤ 300 := by
  simp only [frictionClampVel]
  exact len_clamp_le _

/-- Claim C7: for any incoming state (hence for any sequence of inputs
and any number of ticks) the ship speed immediately after the
friction-and-clamp step of `move_ship` never exceeds 300.0 units/second. -/
theorem C7_speed_cap (keys : Keys) (dt halfWidth halfHeight : ℝ) (ship : ShipData) :
    ((moveShip keys dt halfWidth halfHeight ship).vel).len ≤ 300 := by
  rw [moveShip_eq]
  exact frictionClampVel_len_le keys dt ship.vel

theorem Vec2.len_mk_x (x : ℝ) : Vec2.len ⟨x, 0⟩ = |x| := by
  show Real.sqrt (Vec2.sqLen ⟨x, 0⟩) = |x|
  show Real.sqrt (x ^ 2 + 0 ^ 2) = |x|
  rw [show x ^ 2 + (0 : ℝ) ^ 2 = x ^ 2 by ring, Real.sqrt_sq_eq_abs]

theorem Vec2.normalize_mk_pos (x : ℝ) (hx : 0 < x) : Vec2.normalize ⟨x, 0⟩ = ⟨1, 0⟩ := by
  have hl : Vec2.len ⟨x, 0⟩ = x := by rw [Vec2.len_mk_x, abs_of_pos hx]
  unfold Vec2.normalize
  rw [hl]
  exact Vec2.ext_pair (div_self hx.ne') (zero_div x)

theorem Vec2.normalize_zero : Vec2.normalize ⟨0, 0⟩ = ⟨0, 0⟩ := by
  unfold Vec2.normalize
  exact Vec2.ext_pair (zero_div _) (zero_div _)

/-- With no keys held, `move_ship`'s velocity update is friction alone
(as long as the friction result is inside the speed cap). -/
theorem fcv_noKeys (dt : ℝ) (v : Vec2) (h : Vec2.len ((0.98 : ℝ) • v) ≤ 300) :
    frictionClampVel ⟨false, false, false, false⟩ dt v = (0.98 : ℝ) • v := by
  have hacc : shipAccel ⟨false, false, false, false⟩ = (⟨0, 0⟩ : Vec2) := rfl
  simp only [frictionClampVel]
  rw [hacc, if_neg (show ¬((⟨0, 0⟩ : Vec2) ≠ ⟨0, 0⟩) by simp), if_neg (not_lt.2 h)]

/-- Claim C1 (refuted by the code): at the failing input - ship at the
origin with velocity (100, 0), no keys held, `dt = 1`, half extents
1000 - the full tick moves the ship to `x = 198`: `move_bubbles`'
unfiltered query first adds `velocity * dt` (to 100), then `move_ship`
integrates the friction-clamped velocity 98 once more.  A single Euler
step (the `move_ship` part alone, as the claim describes the tick) would
end at `x = 98 ≠ 198`. -/
theorem C1_double_integration :
    (shipTick ⟨false, false, false, false⟩ 1 1000 1000 ⟨⟨0, 0⟩, ⟨100, 0⟩, 100⟩).pos.x = 198 ∧
    (moveShip ⟨false, false, false, false⟩ 1 1000 1000 ⟨⟨0, 0⟩, ⟨100, 0⟩, 100⟩).pos.x = 98 ∧
    (198 : ℝ) ≠ 98 := by
  have hsm : (0.98 : ℝ) • (⟨100, 0⟩ : Vec2) = ⟨98, 0⟩ := by
    apply Vec2.ext_pair <;> simp <;> norm_num
  have hlen : Vec2.len ((0.98 : ℝ) • (⟨100, 0⟩ : Vec2)) ≤ 300 := by
    rw [hsm, Vec2.len_mk_x]
    norm_num
  have hfcv : frictionClampVel ⟨false, false, false, false⟩ 1 ⟨100, 0⟩ = ⟨98, 0⟩ :=
    (fcv_noKeys 1 ⟨100, 0⟩ hlen).trans hsm
  have hint : integrate 1 (⟨0, 0⟩ : Vec2) ⟨100, 0⟩ = ⟨100, 0⟩ := by
    unfold integrate
    apply Vec2.ext_pair <;> norm_num
  refine ⟨?_, ?_, by norm_num⟩
  · show (moveShip ⟨false, false, false, false⟩ 1 1000 1000
        ⟨integrate 1 ⟨0, 0⟩ ⟨100, 0⟩, ⟨100, 0⟩, 100⟩).pos.x = 198
    rw [hint, moveShip_eq]
    show wrapCoord 1000 ((100 : ℝ) +
        (frictionClampVel ⟨false, false, false, false⟩ 1 ⟨100, 0⟩).x * 1) = 198
    rw [hfcv]
    show wrapCoord 1000 ((100 : ℝ) + 98 * 1) = 198
    simp only [wrapCoord]
    norm_num
  · rw [moveShip_eq]
    show wrapCoord 1000 ((0 : ℝ) +
        (frictionClampVel ⟨false, false, false, false⟩ 1 ⟨100, 0⟩).x * 1) = 98
    rw [hfcv]
    show wrapCoord 1000 ((0 : ℝ) + 98 * 1) = 98
    simp only [wrapCoord]
    norm_num

theorem ShipData.ext_triple {a b : ShipData} (h1 : a.pos = b.pos) (h2 : a.vel = b.vel)
    (h3 : a.health = b.health) : a = b := by
  cases a; cases b; simp_all

/-- Claim C6: whenever the ship is in the border band (a coordinate
magnitude beyond `half extent - 50.0`) and its velocity has negative dot
product with the unit vector from the ship back toward the center,
`handle_ship_border` subtracts exactly `10.0` health and adds an impulse
of `500.0` times that inward unit vector.  The statement holds for every
such state, so the rule re-fires on every tick spent in the band while
moving outward - there is no latch. -/
theorem C6_border_damage (winWidth winHeight : ℝ) (sh : ShipData)
    (hband : |sh.pos.x| > winWidth / 2 - 50 ∨ |sh.pos.y| > winHeight / 2 - 50)
    (hdot : sh.vel.dot (-(Vec2.normalize sh.pos)) < 0) :
    handleShipBorder winWidth winHeight sh =
      { sh with health := sh.health - 10,
                vel := sh.vel + (500 : ℝ) • (-(Vec2.normalize sh.pos)) } := by
  simp only [handleShipBorder]
  rw [if_pos hband, if_pos hdot]

theorem normalize_400 : Vec2.normalize ⟨400, 0⟩ = ⟨1, 0⟩ :=
  Vec2.normalize_mk_pos 400 (by norm_num)

theorem border_band_400 : |(400 : ℝ)| > 700 / 2 - 50 ∨ |(0 : ℝ)| > 700 / 2 - 50 :=
  Or.inl (by rw [abs_of_pos (by norm_num : (0 : ℝ) < 400)]; norm_num)

theorem border_dot_400 : Vec2.dot ⟨10, 0⟩ (-(Vec2.normalize ⟨400, 0⟩)) < 0 := by
  rw [normalize_400]
  show (10 : ℝ) * -1 + 0 * -0 < 0
  norm_num

theorem border_bounce_record :
    ({ pos := ⟨400, 0⟩, vel := ⟨10, 0⟩, health := 100 } : ShipData).health - 10 = (90 : ℝ) ∧
    (⟨10, 0⟩ : Vec2) + (500 : ℝ) • (-(Vec2.normalize ⟨400, 0⟩)) = ⟨-490, 0⟩ := by
  refine ⟨by norm_num, ?_⟩
  rw [normalize_400]
  apply Vec2.ext_pair <;> simp <;> norm_num

/-- Evaluation of `handle_ship_border` on a concrete outward-moving
border state: window 700x700, ship at (400, 0) with velocity (10, 0). -/
theorem border_eval :
    handleShipBorder 700 700 ⟨⟨400, 0⟩, ⟨10, 0⟩, 100⟩ = ⟨⟨400, 0⟩, ⟨-490, 0⟩, 90⟩ := by
  simp only [handleShipBorder]
  rw [if_pos border_band_400, if_pos border_dot_400]
  exact ShipData.ext_triple rfl border_bounce_record.2 border_bounce_record.1

/-- Witness for claim C6: the hypotheses hold and the conclusion
evaluates at window 700x700, ship at (400, 0), velocity (10, 0),
health 100. -/
theorem C6_witness :
    ((|(400 : ℝ)| > 700 / 2 - 50 ∨ |(0 : ℝ)| > 700 / 2 - 50) ∧
      Vec2.dot ⟨10, 0⟩ (-(Vec2.normalize ⟨400, 0⟩)) < 0) ∧
    handleShipBorder 700 700 ⟨⟨400, 0⟩, ⟨10, 0⟩, 100⟩ = ⟨⟨400, 0⟩, ⟨-490, 0⟩, 90⟩ := by
  refine ⟨⟨border_band_400, border_dot_400⟩, ?_⟩
  refine (C6_border_damage 700 700 ⟨⟨400, 0⟩, ⟨10, 0⟩, 100⟩ border_band_400 border_dot_400).trans ?_
  exact ShipData.ext_triple rfl border_bounce_record.2 border_bounce_record.1

/-- Claim C10: the 300.0 speed cap lives only inside `move_ship`.  The
firing recoil is subtracted from the stored velocity with no clamp (the
exact unclamped update is returned), the border bounce can leave the
stored speed at 490 > 300 across system boundaries, and the next
`move_ship` step re-clamps the velocity to at most 300 and integrates
the position with that clamped velocity. -/
theorem C10_unclamped_impulses :
    (∀ (rng : SpawnRng) (w : WorldP) (sh : ShipData),
      spawnBubbleSys true rng { w with ship := some sh } =
        SysOut.ok { w with
          ship := some { sh with
            vel := sh.vel - (5 : ℝ) • spawnDirection rng.angle sh.pos w.mouse },
          bubbles := w.bubbles ++
            [{ pos := sh.pos, vel := rng.speed • spawnDirection rng.angle sh.pos w.mouse,
               size := rng.size, life := rng.life }] }) ∧
    (handleShipBorder 700 700 ⟨⟨400, 0⟩, ⟨10, 0⟩, 100⟩ = ⟨⟨400, 0⟩, ⟨-490, 0⟩, 90⟩ ∧
      Vec2.len ⟨-490, 0⟩ > 300) ∧
    (∀ (keys : Keys) (dt halfWidth halfHeight : ℝ),
      ((moveShip keys dt halfWidth halfHeight ⟨⟨400, 0⟩, ⟨-490, 0⟩, 90⟩).vel).len ≤ 300) ∧
    (∀ (keys : Keys) (dt halfWidth halfHeight : ℝ) (ship : ShipData),
      (moveShip keys dt halfWidth halfHeight ship).pos =
        ⟨wrapCoord halfWidth
            (ship.pos.x + (moveShip keys dt halfWidth halfHeight ship).vel.x * dt),
          wrapCoord halfHeight
            (ship.pos.y + (moveShip keys dt halfWidth halfHeight ship).vel.y * dt)⟩) := by
  refine ⟨fun rng w sh => rfl, ⟨border_eval, ?_⟩, ?_, ?_⟩
  · rw [Vec2.len_mk_x, show |(-490 : ℝ)| = 490 by rw [abs_of_neg] <;> norm_num]
    norm_num
  · intro keys dt halfWidth halfHeight
    rw [moveShip_eq]
    exact frictionClampVel_len_le keys dt _
  · intro keys dt halfWidth halfHeight ship
    rw [moveShip_eq]

/-- Claim C4 (refuted by the code for the spawn half): with fire held and
the aim target exactly at the ship position (3, 4), `spawn_bubble` does
not skip - it spawns a bubble anyway.  In the real-arithmetic model the
degenerate `normalize` yields the zero vector (standing in for the NaN
the `f32` code produces), so a bubble is created at the ship position;
the claimed behavior was "skip with all state unchanged". -/
theorem C4_degenerate_aim_not_skipped :
    spawnBubbleSys true ⟨0, 150, 10, 2, 180⟩
        ⟨1, 1, 700, 700, none, ⟨3, 4⟩, some ⟨⟨3, 4⟩, ⟨7, 8⟩, 100⟩, [], false⟩ =
      SysOut.ok ⟨1, 1, 700, 700, none, ⟨3, 4⟩, some ⟨⟨3, 4⟩, ⟨7, 8⟩, 100⟩,
        [⟨⟨3, 4⟩, ⟨0, 0⟩, 10, 2⟩], false⟩ := by
  have h0 : Vec2.normalize ((⟨3, 4⟩ : Vec2) - ⟨3, 4⟩) = ⟨0, 0⟩ := by
    rw [show (⟨3, 4⟩ : Vec2) - ⟨3, 4⟩ = ⟨0, 0⟩ from Vec2.ext_pair (by norm_num) (by norm_num)]
    exact Vec2.normalize_zero
  simp only [spawnBubbleSys, h0]
  norm_num [Real.cos_zero, Real.sin_zero]
  constructor
  · apply Vec2.ext_pair <;> simp
  · apply Vec2.ext_pair <;> simp

/-- Claim C8 counterexample: with the camera singleton missing (and the
window present), `calculate_mouse_position` panics via
`camera_query.single()` instead of silently skipping its work. -/
theorem C8_counterexample :
    calculateMousePosition (fun v => some v)
        ⟨0, 1, 700, 700, none, ⟨0, 0⟩, none, [], false⟩ = SysOut.panicked := by
  simp only [calculateMousePosition]
  rw [if_neg (by decide)]

/-- Claim C8 as amended: the systems that query the ship through
`get_single` (spawn_bubble, move_ship, handle_ship_border,
check_game_over) silently skip their work when no ship exists and leave
the world unchanged, but the systems that call `Query::single()` on the
window or camera (calculate_mouse_position, despawn_bubbles, and
move_ship once a ship exists) panic when that singleton is missing. -/
theorem C8_amended :
    (∀ (fireHeld : Bool) (rng : SpawnRng) (w : WorldP), w.ship = none →
      spawnBubbleSys fireHeld rng w = SysOut.ok w) ∧
    (∀ (keys : Keys) (dt : ℝ) (w : WorldP), w.ship = none →
      moveShipSys keys dt w = SysOut.ok w) ∧
    (∀ w : WorldP, w.ship = none → handleShipBorderSys w = SysOut.ok w) ∧
    (∀ w : WorldP, w.ship = none → checkGameOverSys w = SysOut.ok w) ∧
    (∀ (proj : Vec2 → Option Vec2) (w : WorldP), ¬(w.cameraCount = 1 ∧ w.windowCount = 1) →
      calculateMousePosition proj w = SysOut.panicked) ∧
    (∀ w : WorldP, ¬ w.windowCount = 1 → despawnBubblesSys w = SysOut.panicked) ∧
    (∀ (keys : Keys) (dt : ℝ) (w : WorldP) (sh : ShipData), w.ship = some sh →
      ¬ w.windowCount = 1 → moveShipSys keys dt w = SysOut.panicked) := by
  refine ⟨?_, ?_, ?_, ?_, ?_, ?_, ?_⟩
  · intro fireHeld rng w h
    simp only [spawnBubbleSys, h]
  · intro keys dt w h
    simp only [moveShipSys, h]
  · intro w h
    simp only [handleShipBorderSys, h]
  · intro w h
    simp only [checkGameOverSys, h]
  · intro proj w h
    simp only [calculateMousePosition]
    rw [if_neg h]
  · intro w h
    simp only [despawnBubblesSys]
    rw [if_neg h]
  · intro keys dt w sh h1 h2
    simp only [moveShipSys, h1]
    rw [if_neg h2]

/-- Claim C5: during Playing, a ship with health ≤ 0 makes
`check_game_over` request the GameOver transition; applying the
transition runs `cleanup_gameplay` (ship, bubbles and enemies destroyed,
camera preserved); and every (re-)entry into Playing runs
`setup_game_round`, creating exactly one fresh ship with health 100 at
the origin with zero velocity, with the bubble and enemy populations
empty. -/
theorem C5_game_over_and_reset :
    (∀ (w : RoundWorld) (sh : ShipE),
      w.state = GameState.Playing → w.ship = some sh → sh.health ≤ 0 →
      (checkGameOver w).pending = some GameState.GameOver ∧
      (applyTransition (checkGameOver w)).state = GameState.GameOver ∧
      (applyTransition (checkGameOver w)).ship = none ∧
      (applyTransition (checkGameOver w)).bubbles = [] ∧
      (applyTransition (checkGameOver w)).enemies = [] ∧
      (applyTransition (checkGameOver w)).cameraAlive = w.cameraAlive) ∧
    (∀ w : RoundWorld,
      w.state = GameState.GameOver → w.pending = some GameState.Playing →
      w.bubbles = [] → w.enemies = [] →
      (applyTransition w).state = GameState.Playing ∧
      (applyTransition w).ship = some ⟨100, ⟨0, 0⟩, ⟨0, 0⟩⟩ ∧
      (applyTransition w).bubbles = [] ∧
      (applyTransition w).enemies = [] ∧
      (applyTransition w).cameraAlive = w.cameraAlive) := by
  constructor
  · intro w sh hs hsh hh
    have hcg : checkGameOver w = { w with pending := some GameState.GameOver } := by
      simp only [checkGameOver, hsh]
      rw [if_pos hh]
    rw [hcg]
    simp [applyTransition, cleanupGameplay, setupGameRound, hs]
  · intro w hs hp hb he
    simp [applyTransition, cleanupGameplay, setupGameRound, hs, hp, hb, he]

/-- Witness for claim C5: a Playing world whose ship has health 0
transitions to GameOver with everything but the camera cleared, and a
GameOver world with a pending Replay re-enters Playing with one fresh
ship. -/
theorem C5_witness :
    ((checkGameOver ⟨GameState.Playing, none, some ⟨0, ⟨0, 0⟩, ⟨0, 0⟩⟩, [3], [7], true⟩).pending
        = some GameState.GameOver ∧
      (applyTransition (checkGameOver
        ⟨GameState.Playing, none, some ⟨0, ⟨0, 0⟩, ⟨0, 0⟩⟩, [3], [7], true⟩)).state
        = GameState.GameOver ∧
      (applyTransition (checkGameOver
        ⟨GameState.Playing, none, some ⟨0, ⟨0, 0⟩, ⟨0, 0⟩⟩, [3], [7], true⟩)).ship = none ∧
      (applyTransition (checkGameOver
        ⟨GameState.Playing, none, some ⟨0, ⟨0, 0⟩, ⟨0, 0⟩⟩, [3], [7], true⟩)).bubbles = [] ∧
      (applyTransition (checkGameOver
        ⟨GameState.Playing, none, some ⟨0, ⟨0, 0⟩, ⟨0, 0⟩⟩, [3], [7], true⟩)).enemies = [] ∧
      (applyTransition (checkGameOver
        ⟨GameState.Playing, none, some ⟨0, ⟨0, 0⟩, ⟨0, 0⟩⟩, [3], [7], true⟩)).cameraAlive
        = true) ∧
    ((applyTransition ⟨GameState.GameOver, some GameState.Playing, none, [], [], false⟩).state
        = GameState.Playing ∧
      (applyTransition ⟨GameState.GameOver, some GameState.Playing, none, [], [], false⟩).ship
        = some ⟨100, ⟨0, 0⟩, ⟨0, 0⟩⟩ ∧
      (applyTransition ⟨GameState.GameOver, some GameState.Playing, none, [], [], false⟩).bubbles
        = [] ∧
      (applyTransition ⟨GameState.GameOver, some GameState.Playing, none, [], [], false⟩).enemies
        = [] ∧
      (applyTransition ⟨GameState.GameOver, some GameState.Playing, none, [], [], false⟩).cameraAlive
        = false) :=
  ⟨C5_game_over_and_reset.1 ⟨GameState.Playing, none, some ⟨0, ⟨0, 0⟩, ⟨0, 0⟩⟩, [3], [7], true⟩
      ⟨0, ⟨0, 0⟩, ⟨0, 0⟩⟩ rfl rfl (by decide),
   C5_game_over_and_reset.2 ⟨GameState.GameOver, some GameState.Playing, none, [], [], false⟩
      rfl rfl rfl rfl⟩

/-- Witness for claim C8's amended statement: a world with no ship is
left unchanged by `spawn_bubble`, and worlds with a missing camera or
window make `calculate_mouse_position` and `despawn_bubbles` panic. -/
theorem C8_witness :
    spawnBubbleSys true ⟨0, 150, 10, 2, 180⟩
        ⟨1, 1, 700, 700, none, ⟨0, 0⟩, none, [], false⟩ =
      SysOut.ok ⟨1, 1, 700, 700, none, ⟨0, 0⟩, none, [], false⟩ ∧
    calculateMousePosition (fun v => some v)
        ⟨1, 0, 700, 700, none, ⟨0, 0⟩, none, [], false⟩ = SysOut.panicked ∧
    despawnBubblesSys ⟨1, 0, 700, 700, none, ⟨0, 0⟩, none, [], false⟩ = SysOut.panicked ∧
    moveShipSys ⟨false, false, false, false⟩ 1
        ⟨1, 1, 700, 700, none, ⟨0, 0⟩, none, [], false⟩ =
      SysOut.ok ⟨1, 1, 700, 700, none, ⟨0, 0⟩, none, [], false⟩ :=
  ⟨C8_amended.1 true ⟨0, 150, 10, 2, 180⟩ _ rfl,
   C8_amended.2.2.2.2.1 (fun v => some v) _ (by decide),
   C8_amended.2.2.2.2.2.1 _ (by decide),
   C8_amended.2.1 ⟨false, false, false, false⟩ 1 _ rfl⟩

theorem enemyIds_cons (e : EnemyM) (rest : List EnemyM) :
    enemyIds (e :: rest) = e.id :: enemyIds rest := rfl

theorem mem_enemyIds {i : Nat} {es : List EnemyM} :
    i ∈ enemyIds es ↔ ∃ e ∈ es, e.id = i := by
  simp [enemyIds]

theorem healthOf_cons (e : EnemyM) (l : List EnemyM) (i : Nat) :
    healthOf (e :: l) i = if e.id = i then e.health else healthOf l i := by
  simp only [healthOf]
  by_cases h : e.id = i
  · rw [List.find?_cons_of_pos _ (by simp [h]), if_pos h]
  · rw [List.find?_cons_of_neg _ (by simp [h]), if_neg h]

theorem countHits_nil (i : Nat) : countHits [] i = 0 := rfl

theorem countHits_cons (p : Nat × Nat) (l : List (Nat × Nat)) (i : Nat) :
    countHits (p :: l) i = (if p.2 = i then 1 else 0) + countHits l i := by
  simp only [countHits, List.filter_cons]
  by_cases h : p.2 = i
  · simp [h, Nat.add_comm]
  · simp [h]

theorem countHits_append (l1 l2 : List (Nat × Nat)) (i : Nat) :
    countHits (l1 ++ l2) i = countHits l1 i + countHits l2 i := by
  simp [countHits, List.filter_append]

theorem countHits_eq_zero (l : List (Nat × Nat)) (i : Nat) (h : ∀ p ∈ l, p.2 ≠ i) :
    countHits l i = 0 := by
  induction l with
  | nil => rfl
  | cons p t ih =>
    rw [countHits_cons, if_neg (h p (List.mem_cons_self p t)),
      ih (fun q hq => h q (List.mem_cons_of_mem p hq))]

theorem healthOf_mem (es : List EnemyM) (hN : (enemyIds es).Nodup) (e : EnemyM)
    (he : e ∈ es) : healthOf es e.id = e.health := by
  induction es with
  | nil => cases he
  | cons f rest ih =>
    rw [enemyIds_cons] at hN
    obtain ⟨hni, hN'⟩ := List.nodup_cons.mp hN
    rw [healthOf_cons]
    rcases List.mem_cons.mp he with rfl | hmem
    · rw [if_pos rfl]
    · have hne : f.id ≠ e.id := fun hEq => hni (hEq ▸ List.mem_map_of_mem _ hmem)
      rw [if_neg hne]
      exact ih hN' hmem

theorem hitEnemy_nil (bpos : Vec2Q) (de : List Nat) :
    hitEnemy bpos [] de = ⟨[], de, none⟩ := rfl

theorem hitEnemy_cons (bpos : Vec2Q) (e : EnemyM) (rest : List EnemyM) (de : List Nat) :
    hitEnemy bpos (e :: rest) de =
      if e.id ∈ de then
        ⟨e :: (hitEnemy bpos rest de).enemies, (hitEnemy bpos rest de).destroyedEnemies,
          (hitEnemy bpos rest de).hit⟩
      else if sqDist bpos e.pos < 900 then
        ⟨{ e with health := e.health - 25 } :: rest,
          if e.health - 25 ≤ 0 then de ++ [e.id] else de, some e.id⟩
      else
        ⟨e :: (hitEnemy bpos rest de).enemies, (hitEnemy bpos rest de).destroyedEnemies,
          (hitEnemy bpos rest de).hit⟩ := by
  simp only [hitEnemy]

theorem hitEnemy_ids (bpos : Vec2Q) (es : List EnemyM) (de : List Nat) :
    enemyIds (hitEnemy bpos es de).enemies = enemyIds es := by
  induction es with
  | nil => rfl
  | cons e rest ih =>
    rw [hitEnemy_cons]
    by_cases h1 : e.id ∈ de
    · rw [if_pos h1]
      show enemyIds (e :: (hitEnemy bpos rest de).enemies) = enemyIds (e :: rest)
      rw [enemyIds_cons, enemyIds_cons, ih]
    · rw [if_neg h1]
      by_cases h2 : sqDist bpos e.pos < 900
      · rw [if_pos h2]
        show enemyIds ({ e with health := e.health - 25 } :: rest) = enemyIds (e :: rest)
        rw [enemyIds_cons, enemyIds_cons]
      · rw [if_neg h2]
        show enemyIds (e :: (hitEnemy bpos rest de).enemies) = enemyIds (e :: rest)
        rw [enemyIds_cons, enemyIds_cons, ih]

theorem hitEnemy_none (bpos : Vec2Q) (es : List EnemyM) (de : List Nat)
    (h : (hitEnemy bpos es de).hit = none) :
    (hitEnemy bpos es de).enemies = es ∧ (hitEnemy bpos es de).destroyedEnemies = de := by
  induction es with
  | nil => exact ⟨rfl, rfl⟩
  | cons e rest ih =>
    rw [hitEnemy_cons] at h ⊢
    by_cases h1 : e.id ∈ de
    · rw [if_pos h1] at h ⊢
      obtain ⟨ha, hb⟩ := ih h
      constructor
      · show e :: (hitEnemy bpos rest de).enemies = e :: rest
        rw [ha]
      · exact hb
    · rw [if_neg h1] at h ⊢
      by_cases h2 : sqDist bpos e.pos < 900
      · rw [if_pos h2] at h
        simp at h
      · rw [if_neg h2] at h ⊢
        obtain ⟨ha, hb⟩ := ih h
        constructor
        · show e :: (hitEnemy bpos rest de).enemies = e :: rest
          rw [ha]
        · exact hb

theorem hitEnemy_hit_mem (bpos : Vec2Q) (es : List EnemyM) (de : List Nat) (i : Nat)
    (h : (hitEnemy bpos es de).hit = some i) : i ∈ enemyIds es := by
  induction es with
  | nil => simp [hitEnemy_nil] at h
  | cons e rest ih =>
    rw [hitEnemy_cons] at h
    by_cases h1 : e.id ∈ de
    · rw [if_pos h1] at h
      show i ∈ e.id :: enemyIds rest
      exact List.mem_cons_of_mem e.id (ih h)
    · rw [if_neg h1] at h
      by_cases h2 : sqDist bpos e.pos < 900
      · rw [if_pos h2] at h
        have : e.id = i := by simpa using h
        show i ∈ e.id :: enemyIds rest
        rw [this]
        exact List.mem_cons_self i _
      · rw [if_neg h2] at h
        show i ∈ e.id :: enemyIds rest
        exact List.mem_cons_of_mem e.id (ih h)

theorem hitEnemy_de_cases (bpos : Vec2Q) (es : List EnemyM) (de : List Nat) :
    (hitEnemy bpos es de).destroyedEnemies = de ∨
    ∃ i, (hitEnemy bpos es de).hit = some i ∧
      (hitEnemy bpos es de).destroyedEnemies = de ++ [i] := by
  induction es with
  | nil => exact Or.inl rfl
  | cons e rest ih =>
    rw [hitEnemy_cons]
    by_cases h1 : e.id ∈ de
    · rw [if_pos h1]
      exact ih
    · rw [if_neg h1]
      by_cases h2 : sqDist bpos e.pos < 900
      · rw [if_pos h2]
        by_cases h3 : e.health - 25 ≤ 0
        · exact Or.inr ⟨e.id, rfl, by rw [if_pos h3]⟩
        · exact Or.inl (by rw [if_neg h3])
      · rw [if_neg h2]
        exact ih

theorem hitEnemy_healthOf_hit (bpos : Vec2Q) (es : List EnemyM) (de : List Nat) (i : Nat)
    (hN : (enemyIds es).Nodup) (h : (hitEnemy bpos es de).hit = some i) :
    healthOf (hitEnemy bpos es de).enemies i = healthOf es i - 25 := by
  induction es with
  | nil => simp [hitEnemy_nil] at h
  | cons e rest ih =>
    rw [enemyIds_cons] at hN
    obtain ⟨hni, hN'⟩ := List.nodup_cons.mp hN
    rw [hitEnemy_cons] at h ⊢
    by_cases h1 : e.id ∈ de
    · rw [if_pos h1] at h ⊢
      have hi : i ∈ enemyIds rest := hitEnemy_hit_mem bpos rest de i h
      have hne : e.id ≠ i := fun hEq => hni (hEq ▸ hi)
      show healthOf (e :: (hitEnemy bpos rest de).enemies) i = healthOf (e :: rest) i - 25
      rw [healthOf_cons, healthOf_cons, if_neg hne, if_neg hne]
      exact ih hN' h
    · rw [if_neg h1] at h ⊢
      by_cases h2 : sqDist bpos e.pos < 900
      · rw [if_pos h2] at h ⊢
        have hei : e.id = i := by simpa using h
        subst hei
        show healthOf ({ e with health := e.health - 25 } :: rest) e.id
          = healthOf (e :: rest) e.id - 25
        rw [healthOf_cons, healthOf_cons]
        rw [show ({ e with health := e.health - 25 } : EnemyM).id = e.id from rfl]
        rw [if_pos rfl, if_pos rfl]
      · rw [if_neg h2] at h ⊢
        have hi : i ∈ enemyIds rest := hitEnemy_hit_mem bpos rest de i h
        have hne : e.id ≠ i := fun hEq => hni (hEq ▸ hi)
        show healthOf (e :: (hitEnemy bpos rest de).enemies) i = healthOf (e :: rest) i - 25
        rw [healthOf_cons, healthOf_cons, if_neg hne, if_neg hne]
        exact ih hN' h

theorem hitEnemy_healthOf_other (bpos : Vec2Q) (es : List EnemyM) (de : List Nat) (j : Nat)
    (h : (hitEnemy bpos es de).hit ≠ some j) :
    healthOf (hitEnemy bpos es de).enemies j = healthOf es j := by
  induction es with
  | nil => rfl
  | cons e rest ih =>
    rw [hitEnemy_cons] at h ⊢
    by_cases h1 : e.id ∈ de
    · rw [if_pos h1] at h ⊢
      show healthOf (e :: (hitEnemy bpos rest de).enemies) j = healthOf (e :: rest) j
      rw [healthOf_cons, healthOf_cons]
      by_cases he : e.id = j
      · rw [if_pos he, if_pos he]
      · rw [if_neg he, if_neg he]
        exact ih h
    · rw [if_neg h1] at h ⊢
      by_cases h2 : sqDist bpos e.pos < 900
      · rw [if_pos h2] at h ⊢
        have hne : e.id ≠ j := fun hEq => h (by rw [hEq])
        show healthOf ({ e with health := e.health - 25 } :: rest) j = healthOf (e :: rest) j
        rw [healthOf_cons, healthOf_cons]
        rw [show ({ e with health := e.health - 25 } : EnemyM).id = e.id from rfl]
        rw [if_neg hne, if_neg hne]
      · rw [if_neg h2] at h ⊢
        show healthOf (e :: (hitEnemy bpos rest de).enemies) j = healthOf (e :: rest) j
        rw [healthOf_cons, healthOf_cons]
        by_cases he : e.id = j
        · rw [if_pos he, if_pos he]
        · rw [if_neg he, if_neg he]
          exact ih h

theorem hitEnemy_sync (bpos : Vec2Q) (es : List EnemyM) (de : List Nat)
    (hN : (enemyIds es).Nodup) (hs : sync es de) :
    sync (hitEnemy bpos es de).enemies (hitEnemy bpos es de).destroyedEnemies := by
  induction es with
  | nil =>
    intro e he
    cases he
  | cons e rest ih =>
    rw [enemyIds_cons] at hN
    obtain ⟨hni, hN'⟩ := List.nodup_cons.mp hN
    have hs' : sync rest de := fun e' he' => hs e' (List.mem_cons_of_mem _ he')
    have hse := hs e (List.mem_cons_self e rest)
    rw [hitEnemy_cons]
    by_cases h1 : e.id ∈ de
    · rw [if_pos h1]
      intro e' he'
      show e'.id ∈ (hitEnemy bpos rest de).destroyedEnemies ↔ e'.health ≤ 0
      rcases List.mem_cons.mp he' with rfl | hmem
      · have hde : e'.id ∈ (hitEnemy bpos rest de).destroyedEnemies := by
          rcases hitEnemy_de_cases bpos rest de with hcase | ⟨i, _, hcase⟩
          · rw [hcase]; exact h1
          · rw [hcase]; exact List.mem_append_left _ h1
        exact iff_of_true hde (hse.mp h1)
      · exact ih hN' hs' e' hmem
    · rw [if_neg h1]
      by_cases h2 : sqDist bpos e.pos < 900
      · rw [if_pos h2]
        intro e' he'
        rcases List.mem_cons.mp he' with rfl | hmem
        · show e.id ∈ (if e.health - 25 ≤ 0 then de ++ [e.id] else de) ↔ e.health - 25 ≤ 0
          by_cases h3 : e.health - 25 ≤ 0
          · rw [if_pos h3]
            exact iff_of_true (List.mem_append_right _ (by simp)) h3
          · rw [if_neg h3]
            exact iff_of_false h1 h3
        · have hne : e'.id ≠ e.id := fun hEq =>
            hni (hEq ▸ List.mem_map_of_mem (fun x => x.id) hmem)
          have base := hs e' (List.mem_cons_of_mem _ hmem)
          show e'.id ∈ (if e.health - 25 ≤ 0 then de ++ [e.id] else de) ↔ e'.health ≤ 0
          by_cases h3 : e.health - 25 ≤ 0
          · rw [if_pos h3]
            have hmm : e'.id ∈ de ++ [e.id] ↔ e'.id ∈ de := by
              simp [List.mem_append, hne]
            rw [hmm]
            exact base
          · rw [if_neg h3]
            exact base
      · rw [if_neg h2]
        intro e' he'
        show e'.id ∈ (hitEnemy bpos rest de).destroyedEnemies ↔ e'.health ≤ 0
        rcases List.mem_cons.mp he' with rfl | hmem
        · have hnotin : e'.id ∉ (hitEnemy bpos rest de).destroyedEnemies := by
            rcases hitEnemy_de_cases bpos rest de with hcase | ⟨i, hhit, hcase⟩
            · rw [hcase]; exact h1
            · rw [hcase]
              intro hin
              rcases List.mem_append.mp hin with hin2 | hin2
              · exact h1 hin2
              · have hei : e'.id = i := by simpa using hin2
                have : i ∈ enemyIds rest := hitEnemy_hit_mem bpos rest de i hhit
                exact hni (hei ▸ this)
          exact iff_of_false hnotin (fun hh => h1 (hse.mpr hh))
        · exact ih hN' hs' e' hmem

theorem collisionPass_nil (es : List EnemyM) (de db : List Nat) (log : List (Nat × Nat)) :
    collisionPass [] es de db log = ⟨es, de, db, log⟩ := rfl

theorem collisionPass_cons_skip {b : BubbleM} {db : List Nat} (bs : List BubbleM)
    (es : List EnemyM) (de : List Nat) (log : List (Nat × Nat)) (h : b.id ∈ db) :
    collisionPass (b :: bs) es de db log = collisionPass bs es de db log := by
  simp only [collisionPass]
  rw [if_pos h]

theorem collisionPass_cons_hit {b : BubbleM} {db : List Nat} {eid : Nat} (bs : List BubbleM)
    (es : List EnemyM) (de : List Nat) (log : List (Nat × Nat)) (h1 : b.id ∉ db)
    (hhit : (hitEnemy b.pos es de).hit = some eid) :
    collisionPass (b :: bs) es de db log =
      collisionPass bs (hitEnemy b.pos es de).enemies (hitEnemy b.pos es de).destroyedEnemies
        (db ++ [b.id]) (log ++ [(b.id, eid)]) := by
  simp only [collisionPass]
  rw [if_neg h1, hhit]

theorem collisionPass_cons_none {b : BubbleM} {db : List Nat} (bs : List BubbleM)
    (es : List EnemyM) (de : List Nat) (log : List (Nat × Nat)) (h1 : b.id ∉ db)
    (hhit : (hitEnemy b.pos es de).hit = none) :
    collisionPass (b :: bs) es de db log =
      collisionPass bs (hitEnemy b.pos es de).enemies (hitEnemy b.pos es de).destroyedEnemies
        db log := by
  simp only [collisionPass]
  rw [if_neg h1, hhit]

/-- Main single-pass invariant: the pass preserves the enemy id list,
keeps the destroyed set synchronized with nonpositive health, and its new
damage events account exactly for every health change (25 per hit). -/
theorem collisionPass_spec (bs : List BubbleM) (es : List EnemyM) (de db : List Nat)
    (log : List (Nat × Nat)) (hN : (enemyIds es).Nodup) (hs : sync es de) :
    enemyIds (collisionPass bs es de db log).enemies = enemyIds es ∧
    sync (collisionPass bs es de db log).enemies
      (collisionPass bs es de db log).destroyedEnemies ∧
    ∃ ev, (collisionPass bs es de db log).events = log ++ ev ∧
      (∀ p ∈ ev, p.2 ∈ enemyIds es) ∧
      ∀ i, healthOf (collisionPass bs es de db log).enemies i
        = healthOf es i - 25 * (countHits ev i : ℤ) := by
  induction bs generalizing es de db log with
  | nil =>
    refine ⟨rfl, hs, [], by simp [collisionPass_nil], ?_, ?_⟩
    · intro p hp
      cases hp
    · intro i
      simp [collisionPass_nil, countHits_nil]
  | cons b bs ih =>
    by_cases h1 : b.id ∈ db
    · rw [collisionPass_cons_skip bs es de log h1]
      exact ih es de db log hN hs
    · rcases hhit : (hitEnemy b.pos es de).hit with _ | eid
      · rw [collisionPass_cons_none bs es de log h1 hhit]
        obtain ⟨he, hd⟩ := hitEnemy_none b.pos es de hhit
        rw [he, hd]
        exact ih es de db log hN hs
      · rw [collisionPass_cons_hit bs es de log h1 hhit]
        have hN1 : (enemyIds (hitEnemy b.pos es de).enemies).Nodup := by
          rw [hitEnemy_ids]
          exact hN
        have hs1 := hitEnemy_sync b.pos es de hN hs
        obtain ⟨hids, hsync, ev', hev', hmem', hh'⟩ :=
          ih (hitEnemy b.pos es de).enemies (hitEnemy b.pos es de).destroyedEnemies
            (db ++ [b.id]) (log ++ [(b.id, eid)]) hN1 hs1
        refine ⟨by rw [hids, hitEnemy_ids], hsync, (b.id, eid) :: ev', ?_, ?_, ?_⟩
        · rw [hev', List.append_assoc, List.singleton_append]
        · intro p hp
          rcases List.mem_cons.mp hp with rfl | hp'
          · exact hitEnemy_hit_mem b.pos es de eid hhit
          · have := hmem' p hp'
            rw [hitEnemy_ids] at this
            exact this
        · intro i
          rw [hh' i, countHits_cons]
          by_cases hie : eid = i
          · subst hie
            rw [hitEnemy_healthOf_hit b.pos es de eid hN hhit, if_pos rfl]
            push_cast
            ring
          · rw [hitEnemy_healthOf_other b.pos es de i (by rw [hhit]; simpa using hie),
              if_neg (by simpa using hie)]
            push_cast
            ring

/-- The destroyed-bubble list stays duplicate-free: a bubble already in
it is skipped by the outer loop, so each bubble is destroyed at most
once per pass. -/
theorem collisionPass_db_nodup (bs : List BubbleM) (es : List EnemyM) (de db : List Nat)
    (log : List (Nat × Nat)) (h : db.Nodup) :
    ((collisionPass bs es de db log).destroyedBubbles).Nodup := by
  induction bs generalizing es de db log with
  | nil => exact h
  | cons b bs ih =>
    by_cases h1 : b.id ∈ db
    · rw [collisionPass_cons_skip bs es de log h1]
      exact ih es de db log h
    · rcases hhit : (hitEnemy b.pos es de).hit with _ | eid
      · rw [collisionPass_cons_none bs es de log h1 hhit]
        exact ih _ _ _ _ h
      · rw [collisionPass_cons_hit bs es de log h1 hhit]
        refine ih _ _ _ _ ?_
        rw [List.nodup_append]
        refine ⟨h, List.nodup_singleton _, ?_⟩
        intro a ha hb
        rw [List.mem_singleton] at hb
        exact h1 (hb ▸ ha)

/-- The inner scan hits exactly the first enemy that is not yet marked
destroyed and lies within squared distance 900 (`distance < 30.0`). -/
theorem hitEnemy_first_match (bpos : Vec2Q) (es : List EnemyM) (de : List Nat) :
    (hitEnemy bpos es de).hit =
      (es.find? (fun e => !(decide (e.id ∈ de)) && decide (sqDist bpos e.pos < 900))).map
        (fun e => e.id) := by
  induction es with
  | nil => rfl
  | cons e rest ih =>
    rw [hitEnemy_cons]
    by_cases h1 : e.id ∈ de
    · rw [if_pos h1, List.find?_cons_of_neg _ (by simp [h1])]
      exact ih
    · rw [if_neg h1]
      by_cases h2 : sqDist bpos e.pos < 900
      · rw [if_pos h2, List.find?_cons_of_pos _ (by simp [h1, h2])]
        rfl
      · rw [if_neg h2, List.find?_cons_of_neg _ (by simp [h1, h2])]
        exact ih

/-- Claim C2: in every collision pass each bubble is destroyed at most
once (the destroyed-bubble list is duplicate-free), each live bubble
hits exactly the first not-yet-destroyed enemy within distance 30.0 of
it in scan order (`find?` characterization), and a bubble's hit changes
no other enemy's health.  The pass is a pure function of the entity
lists, so for a fixed entity ordering the outcome is deterministic. -/
theorem C2_first_match_wins :
    (∀ (bs : List BubbleM) (es : List EnemyM) (de db : List Nat) (log : List (Nat × Nat)),
      db.Nodup → ((collisionPass bs es de db log).destroyedBubbles).Nodup) ∧
    (∀ (bpos : Vec2Q) (es : List EnemyM) (de : List Nat),
      (hitEnemy bpos es de).hit =
        (es.find? (fun e => !(decide (e.id ∈ de)) && decide (sqDist bpos e.pos < 900))).map
          (fun e => e.id)) ∧
    (∀ (bpos : Vec2Q) (es : List EnemyM) (de : List Nat) (j : Nat),
      (hitEnemy bpos es de).hit ≠ some j →
      healthOf (hitEnemy bpos es de).enemies j = healthOf es j) :=
  ⟨fun bs es de db log h => collisionPass_db_nodup bs es de db log h,
   hitEnemy_first_match,
   fun bpos es de j h => hitEnemy_healthOf_other bpos es de j h⟩

/-- Witness for claim C2 at a concrete pass: one bubble at the origin,
one enemy out of range at (100, 0) and one in range at (5, 5). -/
theorem C2_witness :
    ((collisionPass [⟨5, ⟨0, 0⟩⟩] [⟨1, ⟨100, 0⟩, 100⟩, ⟨2, ⟨5, 5⟩, 100⟩]
        [] [] []).destroyedBubbles).Nodup ∧
    ((hitEnemy ⟨0, 0⟩ [⟨1, ⟨100, 0⟩, 100⟩, ⟨2, ⟨5, 5⟩, 100⟩] []).hit =
      (([⟨1, ⟨100, 0⟩, 100⟩, ⟨2, ⟨5, 5⟩, 100⟩] : List EnemyM).find?
          (fun e => !(decide (e.id ∈ ([] : List Nat))) &&
            decide (sqDist ⟨0, 0⟩ e.pos < 900))).map (fun e => e.id)) ∧
    healthOf (hitEnemy ⟨0, 0⟩ [⟨1, ⟨100, 0⟩, 100⟩, ⟨2, ⟨5, 5⟩, 100⟩] []).enemies 1 =
      healthOf [⟨1, ⟨100, 0⟩, 100⟩, ⟨2, ⟨5, 5⟩, 100⟩] 1 :=
  ⟨C2_first_match_wins.1 [⟨5, ⟨0, 0⟩⟩] [⟨1, ⟨100, 0⟩, 100⟩, ⟨2, ⟨5, 5⟩, 100⟩] [] [] []
      (by decide),
   C2_first_match_wins.2.1 ⟨0, 0⟩ [⟨1, ⟨100, 0⟩, 100⟩, ⟨2, ⟨5, 5⟩, 100⟩] [],
   C2_first_match_wins.2.2 ⟨0, 0⟩ [⟨1, ⟨100, 0⟩, 100⟩, ⟨2, ⟨5, 5⟩, 100⟩] [] 1 (by decide)⟩

theorem enemyIds_filter_sublist (es : List EnemyM) (p : EnemyM → Bool) :
    (enemyIds (es.filter p)).Sublist (enemyIds es) := by
  simp only [enemyIds]
  exact List.Sublist.map _ (List.filter_sublist es)

theorem healthOf_filter (es : List EnemyM) (p : EnemyM → Bool) (i : Nat)
    (hN : (enemyIds es).Nodup) (h : ∃ e ∈ es, e.id = i ∧ p e = true) :
    healthOf (es.filter p) i = healthOf es i := by
  induction es with
  | nil => rfl
  | cons f rest ih =>
    rw [enemyIds_cons] at hN
    obtain ⟨hni, hN'⟩ := List.nodup_cons.mp hN
    obtain ⟨e, he, hei, hpe⟩ := h
    by_cases hf : f.id = i
    · have hef : e = f := by
        rcases List.mem_cons.mp he with rfl | hmem
        · rfl
        · exfalso
          apply hni
          rw [hf, ← hei]
          exact List.mem_map_of_mem _ hmem
      subst hef
      rw [List.filter_cons, if_pos hpe, healthOf_cons, healthOf_cons, if_pos hf, if_pos hf]
    · have hmem : e ∈ rest := by
        rcases List.mem_cons.mp he with rfl | hm
        · exact absurd hei hf
        · exact hm
      rw [List.filter_cons, healthOf_cons, if_neg hf]
      by_cases hpf : p f = true
      · rw [if_pos hpf, healthOf_cons, if_neg hf]
        exact ih hN' ⟨e, hmem, hei, hpe⟩
      · rw [if_neg hpf]
        exact ih hN' ⟨e, hmem, hei, hpe⟩

theorem runPasses_nil (es : List EnemyM) : runPasses [] es = ⟨es, []⟩ := rfl

theorem runPasses_cons (bs : List BubbleM) (rest : List (List BubbleM)) (es : List EnemyM) :
    runPasses (bs :: rest) es =
      ⟨(runPasses rest ((collisionPass bs es [] [] []).enemies.filter
          (fun e => !(decide (e.id ∈ (collisionPass bs es [] [] []).destroyedEnemies))))).enemies,
        (collisionPass bs es [] [] []).events ++
          (runPasses rest ((collisionPass bs es [] [] []).enemies.filter
            (fun e =>
              !(decide (e.id ∈ (collisionPass bs es [] [] []).destroyedEnemies))))).events⟩ := by
  simp only [runPasses]

/-- Multi-pass accounting: over any sequence of collision passes the
surviving enemies keep positive health, ids only shrink, and for every
initial enemy id the final health (when it survives) is the initial
health minus 25 per received hit, while it is absent from the final
population exactly when that accounted health has dropped to ≤ 0. -/
theorem runPasses_spec (passes : List (List BubbleM)) (es : List EnemyM)
    (hN : (enemyIds es).Nodup) (hpos : ∀ e ∈ es, 0 < e.health) :
    ((enemyIds (runPasses passes es).enemies).Nodup) ∧
    (∀ e ∈ (runPasses passes es).enemies, 0 < e.health) ∧
    (∀ e ∈ (runPasses passes es).enemies, e.id ∈ enemyIds es) ∧
    (∀ p ∈ (runPasses passes es).events, p.2 ∈ enemyIds es) ∧
    ∀ i ∈ enemyIds es,
      ((∃ e ∈ (runPasses passes es).enemies, e.id = i) →
        healthOf (runPasses passes es).enemies i =
          healthOf es i - 25 * (countHits (runPasses passes es).events i : ℤ)) ∧
      ((∀ e ∈ (runPasses passes es).enemies, e.id ≠ i) ↔
        healthOf es i - 25 * (countHits (runPasses passes es).events i : ℤ) ≤ 0) := by
  induction passes generalizing es with
  | nil =>
    refine ⟨hN, hpos, fun e he => List.mem_map_of_mem _ he, ?_, ?_⟩
    · intro p hp
      cases hp
    · intro i hi
      constructor
      · intro _
        rw [runPasses_nil]
        simp [countHits_nil]
      · obtain ⟨e, he, hei⟩ := mem_enemyIds.mp hi
        refine iff_of_false (fun hall => hall e he hei) ?_
        rw [runPasses_nil]
        have hh : healthOf es i = e.health := by
          rw [← hei]
          exact healthOf_mem es hN e he
        simp only [countHits_nil]
        push_cast
        rw [hh]
        simp only [mul_zero, sub_zero]
        exact not_le.mpr (hpos e he)
  | cons bs rest ih =>
    have hsync0 : sync es [] :=
      fun e he => iff_of_false (List.not_mem_nil _) (not_le.mpr (hpos e he))
    obtain ⟨hids, hsync, ev1, hev1, hmem1, hh1⟩ := collisionPass_spec bs es [] [] [] hN hsync0
    have hev1' : (collisionPass bs es [] [] []).events = ev1 := by simpa using hev1
    rw [runPasses_cons]
    set P := collisionPass bs es [] [] [] with hPdef
    set S := P.enemies.filter (fun e => !(decide (e.id ∈ P.destroyedEnemies))) with hSdef
    have hNS : (enemyIds S).Nodup :=
      List.Nodup.sublist (enemyIds_filter_sublist P.enemies _) (hids ▸ hN)
    have hposS : ∀ e ∈ S, 0 < e.health := by
      intro e he
      rw [hSdef, List.mem_filter] at he
      obtain ⟨heP, hpe⟩ := he
      have hnotin : e.id ∉ P.destroyedEnemies := by simpa using hpe
      exact not_le.mp (fun hle => hnotin ((hsync e heP).mpr hle))
    have hSsubP : ∀ i, i ∈ enemyIds S → i ∈ enemyIds es := by
      intro i hiS
      exact hids ▸ (enemyIds_filter_sublist P.enemies _).subset hiS
    obtain ⟨ihN, ihpos, ihsub, ihev, ihmain⟩ := ih S hNS hposS
    refine ⟨ihN, ihpos, ?_, ?_, ?_⟩
    · intro e he
      exact hSsubP e.id (ihsub e he)
    · intro p hp
      rcases List.mem_append.mp hp with hp1 | hp2
      · exact hmem1 p (hev1' ▸ hp1)
      · exact hSsubP p.2 (ihev p hp2)
    · intro i hi
      rw [hev1', countHits_append]
      by_cases hiS : i ∈ enemyIds S
      · obtain ⟨e', heS', hei'⟩ := mem_enemyIds.mp hiS
        have heS2 : e' ∈ P.enemies.filter (fun e => !(decide (e.id ∈ P.destroyedEnemies))) := by
          rw [← hSdef]
          exact heS'
        have hfil : healthOf S i = healthOf P.enemies i := by
          refine healthOf_filter P.enemies _ i (hids ▸ hN) ?_
          exact ⟨e', (List.mem_filter.mp heS2).1, hei', (List.mem_filter.mp heS2).2⟩
        have hSi : healthOf S i = healthOf es i - 25 * (countHits ev1 i : ℤ) := by
          rw [hfil, hh1 i]
        obtain ⟨ihA, ihB⟩ := ihmain i hiS
        constructor
        · intro hex
          rw [ihA hex, hSi]
          push_cast
          ring
        · refine ihB.trans ?_
          rw [hSi]
          constructor
          · intro hle
            push_cast at hle ⊢
            linarith
          · intro hle
            push_cast at hle ⊢
            linarith
      · have hall : ∀ e ∈ (runPasses rest S).enemies, e.id ≠ i :=
          fun e he hEq => hiS (hEq ▸ ihsub e he)
        have hcntR : countHits (runPasses rest S).events i = 0 :=
          countHits_eq_zero _ _ (fun p hp hEq => hiS (hEq ▸ ihev p hp))
        have hiP : i ∈ enemyIds P.enemies := hids ▸ hi
        obtain ⟨eP, hePmem, hePid⟩ := mem_enemyIds.mp hiP
        have hePS : eP ∉ S := by
          intro hin
          exact hiS (hePid ▸ List.mem_map_of_mem (fun x => x.id) hin)
        have hePde : eP.id ∈ P.destroyedEnemies := by
          by_contra hnot
          apply hePS
          rw [hSdef]
          exact List.mem_filter.mpr ⟨hePmem, by simpa using hnot⟩
        have hePle : eP.health ≤ 0 := (hsync eP hePmem).mp hePde
        have hPi : healthOf P.enemies i = eP.health := by
          rw [← hePid]
          exact healthOf_mem P.enemies (hids ▸ hN) eP hePmem
        have hle : healthOf es i - 25 * ((countHits ev1 i + countHits (runPasses rest S).events i : Nat) : ℤ) ≤ 0 := by
          rw [hcntR]
          have := hh1 i
          rw [hPi] at this
          push_cast
          linarith
        exact ⟨fun hex => absurd hex (by
            rintro ⟨e, he, hei⟩
            exact hall e he hei),
          iff_of_true hall hle⟩

/-- Claim C3: starting from the spawn health 100, after any number of
collision passes each enemy's health equals `100 - 25 * hits`; within a
pass an enemy sits in the destroyed set exactly when its health is ≤ 0;
an initial enemy is absent from the final population exactly when its
accounted health `100 - 25 * hits` has dropped to ≤ 0; and no enemy with
nonpositive health survives any pass. -/
theorem C3_health_accounting (passes : List (List BubbleM)) (es : List EnemyM)
    (hN : (enemyIds es).Nodup) (hH : ∀ e ∈ es, e.health = 100) :
    (∀ bs : List BubbleM, ∀ e' ∈ (collisionPass bs es [] [] []).enemies,
      (e'.id ∈ (collisionPass bs es [] [] []).destroyedEnemies ↔ e'.health ≤ 0)) ∧
    (∀ e' ∈ (runPasses passes es).enemies, 0 < e'.health) ∧
    ∀ e ∈ es,
      ((∃ e' ∈ (runPasses passes es).enemies, e'.id = e.id) →
        healthOf (runPasses passes es).enemies e.id =
          100 - 25 * (countHits (runPasses passes es).events e.id : ℤ)) ∧
      ((∀ e' ∈ (runPasses passes es).enemies, e'.id ≠ e.id) ↔
        100 - 25 * (countHits (runPasses passes es).events e.id : ℤ) ≤ 0) := by
  have hpos : ∀ e ∈ es, 0 < e.health := by
    intro e he
    rw [hH e he]
    norm_num
  have hsync0 : sync es [] :=
    fun e he => iff_of_false (List.not_mem_nil _) (not_le.mpr (hpos e he))
  obtain ⟨hidsN, hposN, hsub, hev, hmain⟩ := runPasses_spec passes es hN hpos
  refine ⟨?_, hposN, ?_⟩
  · intro bs e' he'
    exact (collisionPass_spec bs es [] [] [] hN hsync0).2.1 e' he'
  · intro e he
    have hi : e.id ∈ enemyIds es := List.mem_map_of_mem _ he
    have h100 : healthOf es e.id = 100 := by
      rw [healthOf_mem es hN e he, hH e he]
    obtain ⟨hA, hB⟩ := hmain e.id hi
    constructor
    · intro hex
      rw [hA hex, h100]
    · rw [← h100]
      exact hB

/-- Witness for claim C3: one enemy at the origin with health 100; a
single pass with four bubbles in range destroys it after exactly 4 hits
(100 - 25 * 4 = 0). -/
theorem C3_witness :
    (∀ bs : List BubbleM,
      ∀ e' ∈ (collisionPass bs [⟨1, ⟨0, 0⟩, 100⟩] [] [] []).enemies,
      (e'.id ∈ (collisionPass bs [⟨1, ⟨0, 0⟩, 100⟩] [] [] []).destroyedEnemies ↔
        e'.health ≤ 0)) ∧
    (∀ e' ∈ (runPasses [[⟨10, ⟨1, 0⟩⟩, ⟨11, ⟨2, 0⟩⟩, ⟨12, ⟨0, 1⟩⟩, ⟨13, ⟨1, 1⟩⟩]]
        [⟨1, ⟨0, 0⟩, 100⟩]).enemies, 0 < e'.health) ∧
    ∀ e ∈ ([⟨1, ⟨0, 0⟩, 100⟩] : List EnemyM),
      ((∃ e' ∈ (runPasses [[⟨10, ⟨1, 0⟩⟩, ⟨11, ⟨2, 0⟩⟩, ⟨12, ⟨0, 1⟩⟩, ⟨13, ⟨1, 1⟩⟩]]
          [⟨1, ⟨0, 0⟩, 100⟩]).enemies, e'.id = e.id) →
        healthOf (runPasses [[⟨10, ⟨1, 0⟩⟩, ⟨11, ⟨2, 0⟩⟩, ⟨12, ⟨0, 1⟩⟩, ⟨13, ⟨1, 1⟩⟩]]
            [⟨1, ⟨0, 0⟩, 100⟩]).enemies e.id =
          100 - 25 * (countHits (runPasses [[⟨10, ⟨1, 0⟩⟩, ⟨11, ⟨2, 0⟩⟩, ⟨12, ⟨0, 1⟩⟩,
            ⟨13, ⟨1, 1⟩⟩]] [⟨1, ⟨0, 0⟩, 100⟩]).events e.id : ℤ)) ∧
      ((∀ e' ∈ (runPasses [[⟨10, ⟨1, 0⟩⟩, ⟨11, ⟨2, 0⟩⟩, ⟨12, ⟨0, 1⟩⟩, ⟨13, ⟨1, 1⟩⟩]]
          [⟨1, ⟨0, 0⟩, 100⟩]).enemies, e'.id ≠ e.id) ↔
        100 - 25 * (countHits (runPasses [[⟨10, ⟨1, 0⟩⟩, ⟨11, ⟨2, 0⟩⟩, ⟨12, ⟨0, 1⟩⟩,
          ⟨13, ⟨1, 1⟩⟩]] [⟨1, ⟨0, 0⟩, 100⟩]).events e.id : ℤ) ≤ 0) :=
  C3_health_accounting [[⟨10, ⟨1, 0⟩⟩, ⟨11, ⟨2, 0⟩⟩, ⟨12, ⟨0, 1⟩⟩, ⟨13, ⟨1, 1⟩⟩]]
    [⟨1, ⟨0, 0⟩, 100⟩] (by decide) (by decide)
